import Mathlib

/-!
Shallow embedding of the Baidu Pan upload client (`src/baidu.rs`) of
`backup-to-cloud`.

The Rust code is synchronous and deterministic once the vendor's responses
are fixed, so every operation is modelled as a pure Lean function taking

  * the current clock reading (`now : Int`, seconds; `chrono::DateTime<Utc>`
    comparisons become `Int` comparisons),
  * the persisted token state (`Option TokenData`, mirroring
    `BaiduPanUploader.token_data`; the config file always holds the same
    value, since `save_tokens` writes both),
  * the response the vendor would return to each request it might issue,

and returning the list of outward requests actually issued (`List Ev`)
together with the `anyhow::Result` outcome (`Except String _`).
File contents are byte lists (`List Nat`); the MD5 digest is an opaque
parameter `md5 : List Nat → String` since only chunking structure matters.
-/

namespace Baidu

/-- `CHUNK_SIZE` from `baidu.rs` line 12: 4 MiB per chunk. -/
def CHUNK_SIZE : Nat := 4 * 1024 * 1024

/-- `TokenData` (baidu.rs lines 14-19): the persisted credential. -/
structure TokenData where
  access_token : String
  refresh_token : Option String
  expires_at : Int
deriving DecidableEq, Repr

/-- `TokenResponse` (baidu.rs lines 21-28): a vendor OAuth response. -/
structure TokenResponse where
  access_token : String
  refresh_token : Option String
  expires_in : Int
  error : Option String
  error_description : Option String
deriving DecidableEq, Repr

/-- `UserInfo` (baidu.rs lines 30-36). -/
structure UserInfo where
  errno : Int
  baidu_name : Option String
  total : Option Nat
  used : Option Nat
deriving DecidableEq, Repr

/-- `PrecreateResponse` (baidu.rs lines 38-44); `return_type` is dead code. -/
structure PrecreateResponse where
  errno : Int
  uploadid : Option String
deriving DecidableEq, Repr

/-- Outward-visible actions of the client: each network request the code can
send, plus the blocking read of the authorization code from standard input
(the observable start of the interactive flow in `perform_authorization`). -/
inductive Ev where
  | refreshRequest
  | tokenRequest
  | userInfoRequest
  | promptCode
  | precreateReq
  | chunkReq (i : Nat) (bytes : List Nat)
  | createReq
deriving DecidableEq, Repr

/-- `is_token_valid` (baidu.rs lines 162-168). -/
def is_token_valid (now : Int) (st : Option TokenData) : Bool :=
  match st with
  | some token_data => decide (now < token_data.expires_at)
  | none => false

/-- `save_tokens` (baidu.rs lines 132-159): builds the `TokenData` that is
written to the config file and stored in `self.token_data`.
`expires_at = Utc::now() + Duration::seconds(expires_in - 300)`. -/
def save_tokens (now : Int) (st : Option TokenData) (resp : TokenResponse) : TokenData :=
  { access_token := resp.access_token
    refresh_token := resp.refresh_token.orElse fun _ => st.bind TokenData.refresh_token
    expires_at := now + (resp.expires_in - 300) }

/-- `get_access_token` (baidu.rs lines 179-199): authorization-code exchange.
One `tokenRequest` is sent; an `error` field fails the call, otherwise the
response is persisted via `save_tokens`. -/
def get_access_token (now : Int) (st : Option TokenData) (authResp : TokenResponse) :
    List Ev × Except String (Option TokenData) :=
  match authResp.error with
  | some e =>
    ([Ev.tokenRequest],
      Except.error ("Failed to get access token: " ++ authResp.error_description.getD e))
  | none => ([Ev.tokenRequest], Except.ok (some (save_tokens now st authResp)))

/-- `refresh_access_token` (baidu.rs lines 202-228): fails before any request
when no refresh token is stored; otherwise sends one `refreshRequest`, fails
on an `error` field, and persists via `save_tokens` on success. -/
def refresh_access_token (now : Int) (st : Option TokenData) (resp : TokenResponse) :
    List Ev × Except String (Option TokenData) :=
  match st.bind TokenData.refresh_token with
  | none => ([], Except.error "No refresh token available")
  | some _ =>
    match resp.error with
    | some e =>
      ([Ev.refreshRequest],
        Except.error ("Failed to refresh token: " ++ resp.error_description.getD e))
    | none => ([Ev.refreshRequest], Except.ok (some (save_tokens now st resp)))

/-- `get_valid_access_token` (baidu.rs lines 231-241): refresh when invalid,
then return the stored access token. The returned pair carries the updated
`token_data` (the `&mut self` effect) next to the token string. -/
def get_valid_access_token (now : Int) (st : Option TokenData) (resp : TokenResponse) :
    List Ev × Except String (Option TokenData × String) :=
  let step : List Ev × Except String (Option TokenData) :=
    if is_token_valid now st then ([], Except.ok st)
    else refresh_access_token now st resp
  match step with
  | (evs, Except.error e) => (evs, Except.error e)
  | (evs, Except.ok st1) =>
    match st1.map TokenData.access_token with
    | some tok => (evs, Except.ok (st1, tok))
    | none => (evs, Except.error "No access token available")

/-- `get_user_info` (baidu.rs lines 278-288): gets a valid token (possibly
refreshing) then sends one `userInfoRequest`; `uinfo` is the vendor reply. -/
def get_user_info (now : Int) (st : Option TokenData) (refreshResp : TokenResponse)
    (uinfo : UserInfo) : List Ev × Except String (Option TokenData × UserInfo) :=
  match get_valid_access_token now st refreshResp with
  | (evs, Except.error e) => (evs, Except.error e)
  | (evs, Except.ok (st1, _tok)) => (evs ++ [Ev.userInfoRequest], Except.ok (st1, uinfo))

/-- `perform_authorization` (baidu.rs lines 244-275): prompts for the code on
standard input (`promptCode`), exchanges it, then verifies via
`get_user_info` and fails unless the reported `errno` is zero. -/
def perform_authorization (now : Int) (st : Option TokenData)
    (authResp refreshResp : TokenResponse) (uinfo : UserInfo) :
    List Ev × Except String (Option TokenData) :=
  match get_access_token now st authResp with
  | (evs1, Except.error e) => (Ev.promptCode :: evs1, Except.error e)
  | (evs1, Except.ok st1) =>
    match get_user_info now st1 refreshResp uinfo with
    | (evs2, Except.error e) => (Ev.promptCode :: (evs1 ++ evs2), Except.error e)
    | (evs2, Except.ok (st2, ui)) =>
      if ui.errno = 0 then (Ev.promptCode :: (evs1 ++ evs2), Except.ok st2)
      else (Ev.promptCode :: (evs1 ++ evs2), Except.error "Failed to get user info")

/-- `BaiduPanUploader::new` (baidu.rs lines 64-108) after `load_tokens` has
produced `stored`: no stored token forces the interactive flow; an expired
token is refreshed first, falling back to the interactive flow only when the
refresh fails; a valid token does nothing. -/
def BaiduPanUploader.new (now : Int) (stored : Option TokenData)
    (authResp refreshResp : TokenResponse) (uinfo : UserInfo) :
    List Ev × Except String (Option TokenData) :=
  match stored with
  | none => perform_authorization now none authResp refreshResp uinfo
  | some _ =>
    if is_token_valid now stored then ([], Except.ok stored)
    else
      match refresh_access_token now stored refreshResp with
      | (evs, Except.ok st1) => (evs, Except.ok st1)
      | (evs, Except.error _) =>
        let pa := perform_authorization now stored authResp refreshResp uinfo
        (evs ++ pa.1, pa.2)

/-- Successive reads of `file.read(&mut buffer)` with a `CHUNK_SIZE` buffer on
a regular file: each read returns the next at-most-`CHUNK_SIZE` window until
the file is exhausted.  This is the read pattern shared by
`calculate_block_list` (baidu.rs lines 296-303) and the chunk-transfer loop. -/
def readChunks (l : List Nat) : List (List Nat) :=
  if l = [] then []
  else l.take CHUNK_SIZE :: readChunks (l.drop CHUNK_SIZE)
termination_by l.length
decreasing_by
  simp only [List.length_drop]
  have hl : 0 < l.length := List.length_pos.mpr (by assumption)
  have hc : 0 < CHUNK_SIZE := by decide
  omega

/-- `calculate_block_list` (baidu.rs lines 291-306): the MD5 digest of each
`CHUNK_SIZE` window of the file, in file order.  `md5` abstracts
`md5::compute` plus the lowercase-hex formatting. -/
def calculate_block_list (md5 : List Nat → String) (file : List Nat) : List String :=
  (readChunks file).map md5

/-- `reqwest::StatusCode::is_success`: HTTP status in `200..=299`. -/
def isSuccess (status : Nat) : Bool := decide (200 ≤ status) && decide (status < 300)

/-- The distinct failure exits of `upload` (each an `anyhow::bail!` or `?` in
baidu.rs lines 309-410), carrying the data interpolated into the message. -/
inductive UploadErr where
  | tokenError (msg : String)
  | localFileNotFound
  | invalidFileName
  | precreateRejected (errno : Int)
  | noUploadId
  | chunkFailed (index : Nat) (status : Nat)
  | commitRejected (errno : Int)
deriving DecidableEq, Repr

/-- Everything an `upload` call observes from outside: the clock, the stored
credential and the vendor's reply to a refresh (inputs of
`get_valid_access_token`), the local file, and the vendor's replies to the
precreate request, to each chunk transfer (an HTTP status per chunk index),
and to the create/commit request. -/
structure UploadEnv where
  now : Int
  st : Option TokenData
  refreshResp : TokenResponse
  fileExists : Bool
  fileName : Option String
  file : List Nat
  precreate : PrecreateResponse
  chunkStatus : Nat → Nat
  createErrno : Int

/-- The chunk-transfer loop of `upload` (baidu.rs lines 360-386): iterate once
per `block_list` entry (`count` entries remaining, current `partseq` `i`),
read the next window of the re-opened file (`rest`), break on an empty read,
POST the chunk, and abort on a non-success status. -/
def uploadChunksLoop (chunkStatus : Nat → Nat) : Nat → Nat → List Nat →
    List Ev × Except UploadErr Unit
  | _, 0, _ => ([], Except.ok ())
  | i, count + 1, rest =>
    if rest = [] then ([], Except.ok ())
    else
      let bytes := rest.take CHUNK_SIZE
      if isSuccess (chunkStatus i) then
        let next := uploadChunksLoop chunkStatus (i + 1) count (rest.drop CHUNK_SIZE)
        (Ev.chunkReq i bytes :: next.1, next.2)
      else ([Ev.chunkReq i bytes], Except.error (UploadErr.chunkFailed i (chunkStatus i)))

/-- `upload` (baidu.rs lines 309-410): token acquisition, local-file checks,
block-list computation, precreate, the chunk loop, then create/commit.
Returns the requests issued and the `Result<bool>` outcome. -/
def upload (md5 : List Nat → String) (env : UploadEnv) : List Ev × Except UploadErr Bool :=
  match get_valid_access_token env.now env.st env.refreshResp with
  | (evs, Except.error e) => (evs, Except.error (UploadErr.tokenError e))
  | (evs, Except.ok _) =>
    if env.fileExists then
      match env.fileName with
      | none => (evs, Except.error UploadErr.invalidFileName)
      | some _ =>
        let block_list := calculate_block_list md5 env.file
        if env.precreate.errno = 0 then
          match env.precreate.uploadid with
          | none => (evs ++ [Ev.precreateReq], Except.error UploadErr.noUploadId)
          | some _ =>
            match uploadChunksLoop env.chunkStatus 0 block_list.length env.file with
            | (cevs, Except.error e) => (evs ++ Ev.precreateReq :: cevs, Except.error e)
            | (cevs, Except.ok ()) =>
              let evs2 := evs ++ Ev.precreateReq :: (cevs ++ [Ev.createReq])
              if env.createErrno = 0 then (evs2, Except.ok true)
              else (evs2, Except.error (UploadErr.commitRejected env.createErrno))
        else
          (evs ++ [Ev.precreateReq],
            Except.error (UploadErr.precreateRejected env.precreate.errno))
    else (evs, Except.error UploadErr.localFileNotFound)

/-- Does the event carry chunk bytes?  Used to state that no chunk upload was
issued. -/
def Ev.isChunk : Ev → Bool
  | Ev.chunkReq _ _ => true
  | _ => false

/-- Is the event the create/commit request? -/
def Ev.isCreate : Ev → Bool
  | Ev.createReq => true
  | _ => false

/-- Is the event the chunk-transfer request with `partseq` `j`? -/
def Ev.isChunkIdx (j : Nat) : Ev → Bool
  | Ev.chunkReq i _ => decide (i = j)
  | _ => false

/-- Is the event the interactive prompt for an authorization code? -/
def Ev.isPrompt : Ev → Bool
  | Ev.promptCode => true
  | _ => false

/-- The bytes sent by a chunk-transfer request, if the event is one. -/
def chunkBytes : Ev → Option (List Nat)
  | Ev.chunkReq _ b => some b
  | _ => none

/-! Supporting lemmas about the chunked read pattern. -/

theorem readChunks_nil : readChunks [] = [] := by
  unfold readChunks
  simp

theorem readChunks_ne_nil (l : List Nat) (h : l ≠ []) :
    readChunks l = l.take CHUNK_SIZE :: readChunks (l.drop CHUNK_SIZE) := by
  conv_lhs => unfold readChunks
  simp [h]

/-- Induction along the chunked-read recursion: a property holding of `[]`
and propagating from `l.drop CHUNK_SIZE` to any nonempty `l` holds of every
byte list. -/
theorem chunk_induction (P : List Nat → Prop) (h0 : P [])
    (h1 : ∀ l : List Nat, l ≠ [] → P (l.drop CHUNK_SIZE) → P l) :
    ∀ l : List Nat, P l := by
  have key : ∀ n : Nat, ∀ l : List Nat, l.length ≤ n → P l := by
    intro n
    induction n with
    | zero =>
      intro l hl
      have hnil : l = [] := List.length_eq_zero.mp (Nat.le_zero.mp hl)
      exact hnil ▸ h0
    | succ n ih =>
      intro l hl
      by_cases hnil : l = []
      · exact hnil ▸ h0
      · refine h1 l hnil (ih _ ?_)
        have hpos : 0 < l.length := List.length_pos.mpr hnil
        have hc : 0 < CHUNK_SIZE := by decide
        simp only [List.length_drop]
        omega
  exact fun l => key l.length l le_rfl

theorem readChunks_eq_nil_iff (l : List Nat) : readChunks l = [] ↔ l = [] := by
  constructor
  · intro h
    by_contra hne
    rw [readChunks_ne_nil l hne] at h
    exact List.cons_ne_nil _ _ h
  · intro h
    rw [h, readChunks_nil]

theorem readChunks_length (l : List Nat) :
    (readChunks l).length = (l.length + CHUNK_SIZE - 1) / CHUNK_SIZE := by
  induction l using chunk_induction with
  | h0 => rw [readChunks_nil]; decide
  | h1 l hne ih =>
    rw [readChunks_ne_nil l hne]
    have hpos : 0 < l.length := List.length_pos.mpr hne
    simp only [List.length_cons, ih, List.length_drop]
    simp only [CHUNK_SIZE] at *
    omega

theorem readChunks_getElem? (l : List Nat) :
    ∀ i : Nat, i < (readChunks l).length →
      (readChunks l)[i]? = some ((l.drop (CHUNK_SIZE * i)).take CHUNK_SIZE) := by
  induction l using chunk_induction with
  | h0 => intro i hi; rw [readChunks_nil] at hi; exact absurd hi (by simp)
  | h1 l hne ih =>
    intro i hi
    rw [readChunks_ne_nil l hne] at hi ⊢
    cases i with
    | zero => simp
    | succ i =>
      have hi' : i < (readChunks (l.drop CHUNK_SIZE)).length := by
        simpa using Nat.lt_of_succ_lt_succ hi
      simp only [List.getElem?_cons_succ, ih i hi', List.drop_drop]
      have harith : CHUNK_SIZE + CHUNK_SIZE * i = CHUNK_SIZE * (i + 1) := by ring
      rw [harith]

theorem readChunks_flatten (l : List Nat) : (readChunks l).flatten = l := by
  induction l using chunk_induction with
  | h0 => rw [readChunks_nil]; rfl
  | h1 l hne ih =>
    rw [readChunks_ne_nil l hne, List.flatten_cons, ih, List.take_append_drop]

theorem getLastD_of_ne_nil {α : Type} (a d : α) (l : List α) (h : l ≠ []) :
    (a :: l).getLastD d = l.getLastD d := by
  cases l with
  | nil => exact absurd rfl h
  | cons b t => rfl

theorem readChunks_getLastD (l : List Nat) (h : l ≠ []) :
    (readChunks l).getLastD [] =
      l.drop (CHUNK_SIZE * ((readChunks l).length - 1)) := by
  induction l using chunk_induction with
  | h0 => exact absurd rfl h
  | h1 l hne ih =>
    by_cases hd : l.drop CHUNK_SIZE = []
    · rw [readChunks_ne_nil l hne, hd, readChunks_nil]
      have hle : l.length ≤ CHUNK_SIZE := List.drop_eq_nil_iff.mp hd
      simp [List.take_of_length_le hle]
    · have htl : readChunks (l.drop CHUNK_SIZE) ≠ [] := by
        rw [Ne, readChunks_eq_nil_iff]; exact hd
      have hlen : 0 < (readChunks (l.drop CHUNK_SIZE)).length := List.length_pos.mpr htl
      rw [readChunks_ne_nil l hne, getLastD_of_ne_nil _ _ _ htl, ih hd, List.drop_drop,
        List.length_cons]
      congr 1
      have : (readChunks (l.drop CHUNK_SIZE)).length - 1 + 1 =
          (readChunks (l.drop CHUNK_SIZE)).length := Nat.succ_pred_eq_of_pos hlen
      cases hnn : (readChunks (l.drop CHUNK_SIZE)).length with
      | zero => omega
      | succ n => simp only [Nat.add_sub_cancel]; ring

/-! Supporting lemmas about the chunk-transfer loop and event traces. -/

theorem uploadChunksLoop_all_success (cs : Nat → Nat)
    (hsucc : ∀ j : Nat, isSuccess (cs j) = true) :
    ∀ l : List Nat, ∀ i : Nat,
      uploadChunksLoop cs i (readChunks l).length l =
        (((readChunks l).enumFrom i).map fun p => Ev.chunkReq p.1 p.2, Except.ok ()) := by
  intro l
  induction l using chunk_induction with
  | h0 => intro i; rw [readChunks_nil]; rfl
  | h1 l hne ih =>
    intro i
    rw [readChunks_ne_nil l hne]
    simp only [List.length_cons, uploadChunksLoop, hne, if_false, hsucc i, if_true,
      List.enumFrom_cons, List.map_cons]
    rw [ih (i + 1)]

theorem uploadChunksLoop_fail (cs : Nat → Nat) :
    ∀ k : Nat, ∀ l : List Nat, ∀ i count : Nat,
      count = (readChunks l).length → k < count →
      (∀ j : Nat, j < k → isSuccess (cs (i + j)) = true) →
      isSuccess (cs (i + k)) = false →
      uploadChunksLoop cs i count l =
        ((((readChunks l).take (k + 1)).enumFrom i).map fun p => Ev.chunkReq p.1 p.2,
          Except.error (UploadErr.chunkFailed (i + k) (cs (i + k)))) := by
  intro k
  induction k with
  | zero =>
    intro l i count hcount hk _ hfail
    have hne : l ≠ [] := by
      intro hnil
      rw [hnil, readChunks_nil] at hcount
      simp only [List.length_nil] at hcount
      omega
    rw [readChunks_ne_nil l hne] at hcount ⊢
    obtain ⟨count0, rfl⟩ : ∃ c, count = c + 1 := ⟨count - 1, by omega⟩
    simp only [Nat.add_zero] at hfail
    simp only [uploadChunksLoop, hne, if_false, hfail, Bool.false_eq_true, List.take_succ_cons,
      List.take_zero, List.enumFrom_cons, List.enumFrom_nil, List.map_cons, List.map_nil,
      Nat.add_zero]
  | succ k ih =>
    intro l i count hcount hk hsucc hfail
    have hne : l ≠ [] := by
      intro hnil
      rw [hnil, readChunks_nil] at hcount
      simp only [List.length_nil] at hcount
      omega
    rw [readChunks_ne_nil l hne] at hcount ⊢
    obtain ⟨count0, rfl⟩ : ∃ c, count = c + 1 := ⟨count - 1, by omega⟩
    simp only [List.length_cons, Nat.add_right_cancel_iff] at hcount
    have hs0 : isSuccess (cs i) = true := by
      have := hsucc 0 (Nat.succ_pos k)
      simpa using this
    have hrec := ih (l.drop CHUNK_SIZE) (i + 1) count0 hcount
      (by omega)
      (fun j hj => by
        have := hsucc (j + 1) (by omega)
        have harith : i + (j + 1) = i + 1 + j := by omega
        rwa [harith] at this)
      (by
        have harith : i + (k + 1) = i + 1 + k := by omega
        rwa [harith] at hfail)
    simp only [uploadChunksLoop, hne, if_false, hs0, if_true, hrec, List.take_succ_cons,
      List.enumFrom_cons, List.map_cons]
    have harith : i + 1 + k = i + (k + 1) := by omega
    rw [harith]

theorem countP_chunkIdx_enumFrom (j : Nat) :
    ∀ (l : List (List Nat)) (i : Nat),
      ((l.enumFrom i).map fun p => Ev.chunkReq p.1 p.2).countP (Ev.isChunkIdx j) =
        if i ≤ j ∧ j < i + l.length then 1 else 0 := by
  intro l
  induction l with
  | nil =>
    intro i
    simp only [List.enumFrom_nil, List.map_nil, List.countP_nil, List.length_nil]
    split
    · omega
    · rfl
  | cons a l ih =>
    intro i
    have hcnt : Ev.isChunkIdx j (Ev.chunkReq i a) = decide (i = j) := rfl
    simp only [List.enumFrom_cons, List.map_cons, List.countP_cons, ih (i + 1),
      List.length_cons, hcnt]
    by_cases hij : i = j
    · rw [if_pos (show decide (i = j) = true by simp [hij]),
        if_neg (show ¬(i + 1 ≤ j ∧ j < i + 1 + l.length) by omega),
        if_pos (show i ≤ j ∧ j < i + (l.length + 1) by omega)]
    · rw [if_neg (show ¬(decide (i = j) = true) by simp [hij])]
      by_cases h2 : i + 1 ≤ j ∧ j < i + 1 + l.length
      · rw [if_pos h2, if_pos (by omega : i ≤ j ∧ j < i + (l.length + 1))]
      · rw [if_neg h2, if_neg (by omega : ¬(i ≤ j ∧ j < i + (l.length + 1)))]

theorem mapSnd_enumFrom {α : Type} : ∀ (l : List α) (i : Nat),
    ((l.enumFrom i).map fun p => p.2) = l := by
  intro l
  induction l with
  | nil => intro i; rfl
  | cons a l ih =>
    intro i
    simp only [List.enumFrom_cons, List.map_cons, ih (i + 1)]

theorem get_valid_access_token_events (now : Int) (st : Option TokenData)
    (resp : TokenResponse) :
    ∀ e ∈ (get_valid_access_token now st resp).1, e = Ev.refreshRequest := by
  intro e he
  unfold get_valid_access_token at he
  by_cases hv : is_token_valid now st = true
  · simp only [hv, if_true] at he
    revert he
    cases st with
    | none => intro he; simp at he
    | some t => intro he; simp at he
  · simp only [Bool.not_eq_true] at hv
    simp only [hv, Bool.false_eq_true, if_false] at he
    revert he
    unfold refresh_access_token
    cases hrt : st.bind TokenData.refresh_token with
    | none => intro he; simp at he
    | some rt =>
      cases herr : resp.error with
      | none =>
        intro he
        simp only at he
        rcases List.mem_singleton.mp he with rfl
        rfl
      | some err =>
        intro he
        simp only at he
        rcases List.mem_singleton.mp he with rfl
        rfl

theorem get_valid_countP (now : Int) (st : Option TokenData) (resp : TokenResponse)
    (q : Ev → Bool) (hq : q Ev.refreshRequest = false) :
    ((get_valid_access_token now st resp).1).countP q = 0 := by
  rw [List.countP_eq_zero]
  intro e he
  rw [get_valid_access_token_events now st resp e he, hq]
  exact Bool.false_ne_true

theorem get_access_token_events (now : Int) (st : Option TokenData)
    (authResp : TokenResponse) :
    (get_access_token now st authResp).1 = [Ev.tokenRequest] := by
  unfold get_access_token
  cases authResp.error <;> rfl

theorem get_user_info_countP (now : Int) (st : Option TokenData) (resp : TokenResponse)
    (uinfo : UserInfo) (q : Ev → Bool) (hq1 : q Ev.refreshRequest = false)
    (hq2 : q Ev.userInfoRequest = false) :
    ((get_user_info now st resp uinfo).1).countP q = 0 := by
  unfold get_user_info
  rcases hgv : get_valid_access_token now st resp with ⟨evs, r⟩
  have hevs : evs.countP q = 0 := by
    have h := get_valid_countP now st resp q hq1
    rw [hgv] at h
    exact h
  cases r with
  | error e => simpa using hevs
  | ok p =>
    rcases p with ⟨st1, tok⟩
    simp [List.countP_append, hevs, List.countP_cons, hq2]

theorem perform_authorization_countP (now : Int) (st : Option TokenData)
    (authResp refreshResp : TokenResponse) (uinfo : UserInfo) (q : Ev → Bool)
    (hq1 : q Ev.refreshRequest = false) (hq2 : q Ev.userInfoRequest = false)
    (hq3 : q Ev.tokenRequest = false) :
    ((perform_authorization now st authResp refreshResp uinfo).1).countP q =
      if q Ev.promptCode then 1 else 0 := by
  unfold perform_authorization
  rcases hga : get_access_token now st authResp with ⟨evs1, r1⟩
  have hevs1 : evs1 = [Ev.tokenRequest] := by
    have h := get_access_token_events now st authResp
    rw [hga] at h
    exact h
  subst hevs1
  cases r1 with
  | error e => simp [List.countP_cons, hq3]
  | ok st1 =>
    rcases hgu : get_user_info now st1 refreshResp uinfo with ⟨evs2, r2⟩
    have hevs2 : evs2.countP q = 0 := by
      have h := get_user_info_countP now st1 refreshResp uinfo q hq1 hq2
      rw [hgu] at h
      exact h
    cases r2 with
    | error e => simp [hgu, List.countP_cons, List.countP_append, hq3, hevs2]
    | ok p =>
      rcases p with ⟨st2, ui⟩
      by_cases hui : ui.errno = 0 <;>
        simp [hgu, hui, List.countP_cons, List.countP_append, hq3, hevs2]

/-! The claims about the token lifecycle. -/

/-- C5: for every stored credential record, if the current time is strictly
before `expires_at` then `get_valid_access_token` returns the stored access
token, leaves the stored credential untouched, and issues no network request
(the event trace is empty, so in particular no refresh request). -/
theorem C5_valid_token_no_network (now : Int) (td : TokenData) (resp : TokenResponse)
    (h : now < td.expires_at) :
    get_valid_access_token now (some td) resp =
      ([], Except.ok (some td, td.access_token)) := by
  have hv : is_token_valid now (some td) = true := by
    simp only [is_token_valid, decide_eq_true_eq]
    exact h
  unfold get_valid_access_token
  simp [hv]

def tdC5 : TokenData :=
  { access_token := "tok", refresh_token := some "r", expires_at := 10 }

def respC5 : TokenResponse :=
  { access_token := "n", refresh_token := none, expires_in := 3600,
    error := none, error_description := none }

theorem C5_valid_token_no_network_witness :
    (0 : Int) < tdC5.expires_at ∧
      get_valid_access_token 0 (some tdC5) respC5 =
        ([], Except.ok (some tdC5, tdC5.access_token)) :=
  ⟨by decide, C5_valid_token_no_network 0 tdC5 respC5 (by decide)⟩

/-- C6: for every stored credential record with the current time at or past
`expires_at`: with a refresh token present and a vendor response free of an
`error` field, `get_valid_access_token` issues exactly one refresh request
and returns the access token of the freshly saved credential (the vendor's
new `access_token`, since `save_tokens` copies it); with no refresh token
stored it fails with the no-refresh-token error, issuing no request at all
(in particular it never starts the interactive flow). -/
theorem C6_expired_refresh_or_fail (now : Int) (td : TokenData) (resp : TokenResponse)
    (hexp : td.expires_at ≤ now) :
    (∀ rt : String, td.refresh_token = some rt → resp.error = none →
      get_valid_access_token now (some td) resp =
        ([Ev.refreshRequest],
          Except.ok (some (save_tokens now (some td) resp), resp.access_token))) ∧
    (td.refresh_token = none →
      get_valid_access_token now (some td) resp =
        ([], Except.error "No refresh token available")) := by
  have hv : is_token_valid now (some td) = false := by
    simp only [is_token_valid]
    exact decide_eq_false (by omega)
  constructor
  · intro rt hrt herr
    unfold get_valid_access_token refresh_access_token
    simp [hv, hrt, herr, save_tokens]
  · intro hrt
    unfold get_valid_access_token refresh_access_token
    simp [hv, hrt]

def tdC6a : TokenData :=
  { access_token := "stale", refresh_token := some "rt", expires_at := -5 }

def tdC6b : TokenData :=
  { access_token := "stale", refresh_token := none, expires_at := -5 }

def respC6 : TokenResponse :=
  { access_token := "fresh", refresh_token := some "rt2", expires_in := 2592000,
    error := none, error_description := none }

theorem C6_expired_refresh_or_fail_witness :
    (tdC6a.expires_at ≤ (0 : Int) ∧
      get_valid_access_token 0 (some tdC6a) respC6 =
        ([Ev.refreshRequest],
          Except.ok (some (save_tokens 0 (some tdC6a) respC6), respC6.access_token))) ∧
    (tdC6b.expires_at ≤ (0 : Int) ∧
      get_valid_access_token 0 (some tdC6b) respC6 =
        ([], Except.error "No refresh token available")) :=
  ⟨⟨by decide, (C6_expired_refresh_or_fail 0 tdC6a respC6 (by decide)).1 "rt" rfl rfl⟩,
   ⟨by decide, (C6_expired_refresh_or_fail 0 tdC6b respC6 (by decide)).2 rfl⟩⟩

def tdC7 : TokenData :=
  { access_token := "old", refresh_token := some "rt", expires_at := -1 }

def respC7 : TokenResponse :=
  { access_token := "new", refresh_token := none, expires_in := 0,
    error := none, error_description := none }

def newTdC7 : TokenData :=
  { access_token := "new", refresh_token := some "rt", expires_at := -300 }

/-- C7, counterexample: at `now = 0` the stored credential `tdC7` is expired
(`expires_at = -1 < 0`) and the vendor accepts the refresh (`error = none`),
yet because the response carries `expires_in = 0` the refreshed credential's
`expires_at` is `0 + (0 - 300) = -300`, which is NOT strictly greater than
the old `-1`.  The code puts no lower bound on the vendor's `expires_in`. -/
theorem C7_counterexample_expiry_can_shrink :
    tdC7.expires_at < 0 ∧ respC7.error = none ∧
    (refresh_access_token 0 (some tdC7) respC7).2 = Except.ok (some newTdC7) ∧
    ¬ (tdC7.expires_at < newTdC7.expires_at) :=
  ⟨by decide, rfl, rfl, by decide⟩

/-- C7 as amended: for every persisted credential whose `expires_at` is in
the past and whose refresh token the vendor accepts, the refresh succeeds
with the `save_tokens`-built credential; PROVIDED the vendor-reported
`expires_in` is at least the 300-second safety margin, that credential's
`expires_at` is strictly greater than the old one; and unconditionally its
`refresh_token` equals the old one whenever the vendor's response omits a
new refresh token. -/
theorem C7_amended_refresh_extends_expiry (now : Int) (td : TokenData)
    (resp : TokenResponse) (hpast : td.expires_at < now) (rt : String)
    (hrt : td.refresh_token = some rt) (hok : resp.error = none) :
    (refresh_access_token now (some td) resp).2 =
      Except.ok (some (save_tokens now (some td) resp)) ∧
    (300 ≤ resp.expires_in →
      td.expires_at < (save_tokens now (some td) resp).expires_at) ∧
    (resp.refresh_token = none →
      (save_tokens now (some td) resp).refresh_token = td.refresh_token) := by
  refine ⟨?_, ?_, ?_⟩
  · unfold refresh_access_token
    simp [hrt, hok]
  · intro hmargin
    simp only [save_tokens]
    omega
  · intro hnone
    simp [save_tokens, hnone, Option.orElse]

def tdC7w : TokenData :=
  { access_token := "old", refresh_token := some "rt", expires_at := -10 }

def respC7w : TokenResponse :=
  { access_token := "new", refresh_token := none, expires_in := 2592000,
    error := none, error_description := none }

theorem C7_amended_refresh_extends_expiry_witness :
    tdC7w.expires_at < (0 : Int) ∧ (300 : Int) ≤ respC7w.expires_in ∧
    ((refresh_access_token 0 (some tdC7w) respC7w).2 =
        Except.ok (some (save_tokens 0 (some tdC7w) respC7w)) ∧
      tdC7w.expires_at < (save_tokens 0 (some tdC7w) respC7w).expires_at ∧
      (respC7w.refresh_token = none →
        (save_tokens 0 (some tdC7w) respC7w).refresh_token = tdC7w.refresh_token)) :=
  ⟨by decide, by decide,
    (C7_amended_refresh_extends_expiry 0 tdC7w respC7w (by decide) "rt" rfl rfl).1,
    (C7_amended_refresh_extends_expiry 0 tdC7w respC7w (by decide) "rt" rfl rfl).2.1
      (by decide),
    (C7_amended_refresh_extends_expiry 0 tdC7w respC7w (by decide) "rt" rfl rfl).2.2⟩

/-- C8: every credential the system writes has
`expires_at = now + (expires_in - 300)`, the vendor-reported expiry minus the
300-second safety margin.  `save_tokens` is the only function that builds or
persists a `TokenData`, and both write paths — the authorization-code
exchange `get_access_token` and `refresh_access_token` — go through it, so
every persisted credential satisfies the equation. -/
theorem C8_expiry_margin_invariant (now : Int) (st : Option TokenData)
    (resp : TokenResponse) (td : TokenData)
    (h : td = save_tokens now st resp ∨
      (get_access_token now st resp).2 = Except.ok (some td) ∨
      (refresh_access_token now st resp).2 = Except.ok (some td)) :
    td.expires_at = now + (resp.expires_in - 300) := by
  rcases h with h | h | h
  · rw [h]; rfl
  · unfold get_access_token at h
    cases herr : resp.error with
    | some e => rw [herr] at h; simp at h
    | none =>
      rw [herr] at h
      simp only [Except.ok.injEq, Option.some.injEq] at h
      rw [← h]; rfl
  · unfold refresh_access_token at h
    cases hrt : st.bind TokenData.refresh_token with
    | none => rw [hrt] at h; simp at h
    | some rt =>
      rw [hrt] at h
      cases herr : resp.error with
      | some e => rw [herr] at h; simp at h
      | none =>
        rw [herr] at h
        simp only [Except.ok.injEq, Option.some.injEq] at h
        rw [← h]; rfl

def respC8 : TokenResponse :=
  { access_token := "a", refresh_token := some "r", expires_in := 3600,
    error := none, error_description := none }

theorem C8_expiry_margin_invariant_witness :
    (save_tokens 0 none respC8).expires_at = 0 + (respC8.expires_in - 300) :=
  C8_expiry_margin_invariant 0 none respC8 (save_tokens 0 none respC8) (Or.inl rfl)

/-- C9: during `BaiduPanUploader::new` with a stored credential: if it is
still valid nothing happens (empty trace, state kept).  If it is expired, a
refresh is attempted first: when the refresh succeeds the whole trace is the
single refresh request (the interactive flow never runs); when it fails the
interactive prompt occurs exactly once, and — whenever a refresh token was
present, so the refresh attempt is visible on the wire — the first event of
the trace is the refresh request, i.e. the interactive flow never precedes
the refresh. -/
theorem C9_init_refresh_before_interactive (now : Int) (td : TokenData)
    (authResp refreshResp : TokenResponse) (uinfo : UserInfo) :
    (now < td.expires_at →
      BaiduPanUploader.new now (some td) authResp refreshResp uinfo =
        ([], Except.ok (some td))) ∧
    (td.expires_at ≤ now →
      (∀ rt : String, td.refresh_token = some rt → refreshResp.error = none →
        (BaiduPanUploader.new now (some td) authResp refreshResp uinfo).1 =
          [Ev.refreshRequest]) ∧
      (td.refresh_token = none →
        ((BaiduPanUploader.new now (some td) authResp refreshResp uinfo).1).countP
          Ev.isPrompt = 1) ∧
      (∀ (rt e : String), td.refresh_token = some rt → refreshResp.error = some e →
        ((BaiduPanUploader.new now (some td) authResp refreshResp uinfo).1).countP
          Ev.isPrompt = 1 ∧
        ((BaiduPanUploader.new now (some td) authResp refreshResp uinfo).1).head? =
          some Ev.refreshRequest)) := by
  constructor
  · intro h
    have hv : is_token_valid now (some td) = true := by
      simp only [is_token_valid, decide_eq_true_eq]
      exact h
    unfold BaiduPanUploader.new
    simp [hv]
  · intro hexp
    have hv : is_token_valid now (some td) = false := by
      simp only [is_token_valid]
      exact decide_eq_false (by omega)
    have hpa := perform_authorization_countP now (some td) authResp refreshResp uinfo
      Ev.isPrompt rfl rfl rfl
    refine ⟨?_, ?_, ?_⟩
    · intro rt hrt herr
      have hr : refresh_access_token now (some td) refreshResp =
          ([Ev.refreshRequest],
            Except.ok (some (save_tokens now (some td) refreshResp))) := by
        unfold refresh_access_token
        rw [show (some td).bind TokenData.refresh_token = some rt from hrt, herr]
      unfold BaiduPanUploader.new
      rw [hv, hr]
      rfl
    · intro hrt
      have hr : refresh_access_token now (some td) refreshResp =
          ([], Except.error "No refresh token available") := by
        unfold refresh_access_token
        rw [show (some td).bind TokenData.refresh_token = none from hrt]
      unfold BaiduPanUploader.new
      rw [hv, hr]
      simpa [Ev.isPrompt] using hpa
    · intro rt e hrt herr
      have hr : refresh_access_token now (some td) refreshResp =
          ([Ev.refreshRequest],
            Except.error ("Failed to refresh token: " ++
              refreshResp.error_description.getD e)) := by
        unfold refresh_access_token
        rw [show (some td).bind TokenData.refresh_token = some rt from hrt, herr]
      unfold BaiduPanUploader.new
      rw [hv, hr]
      constructor
      · simpa [List.countP_cons, Ev.isPrompt] using hpa
      · rfl

def tdC9v : TokenData :=
  { access_token := "live", refresh_token := some "rt", expires_at := 100 }

def tdC9e : TokenData :=
  { access_token := "stale", refresh_token := some "rt", expires_at := -100 }

def respC9 : TokenResponse :=
  { access_token := "fresh", refresh_token := some "rt2", expires_in := 2592000,
    error := none, error_description := none }

def authC9 : TokenResponse :=
  { access_token := "auth", refresh_token := some "rt3", expires_in := 2592000,
    error := none, error_description := none }

def uinfoC9 : UserInfo :=
  { errno := 0, baidu_name := some "u", total := some 1, used := some 0 }

theorem C9_init_refresh_before_interactive_witness :
    ((0 : Int) < tdC9v.expires_at ∧
      BaiduPanUploader.new 0 (some tdC9v) authC9 respC9 uinfoC9 =
        ([], Except.ok (some tdC9v))) ∧
    (tdC9e.expires_at ≤ (0 : Int) ∧
      (BaiduPanUploader.new 0 (some tdC9e) authC9 respC9 uinfoC9).1 =
        [Ev.refreshRequest]) :=
  ⟨⟨by decide,
      (C9_init_refresh_before_interactive 0 tdC9v authC9 respC9 uinfoC9).1 (by decide)⟩,
   ⟨by decide,
      ((C9_init_refresh_before_interactive 0 tdC9e authC9 respC9 uinfoC9).2
        (by decide)).1 "rt" rfl rfl⟩⟩

/-! The claims about the chunked-upload protocol. -/

theorem calculate_block_list_length (md5 : List Nat → String) (file : List Nat) :
    (calculate_block_list md5 file).length = (readChunks file).length := by
  rw [calculate_block_list, List.length_map]

theorem countP_chunkEvs_zero (q : Ev → Bool)
    (hq : ∀ (i : Nat) (b : List Nat), q (Ev.chunkReq i b) = false) :
    ∀ (l : List (List Nat)) (i : Nat),
      ((l.enumFrom i).map fun p => Ev.chunkReq p.1 p.2).countP q = 0 := by
  intro l
  induction l with
  | nil => intro i; rfl
  | cons a l ih =>
    intro i
    simp [List.enumFrom_cons, List.countP_cons, hq, ih (i + 1)]

theorem filterMap_chunkBytes_chunkEvs :
    ∀ (l : List (List Nat)) (i : Nat),
      ((l.enumFrom i).map fun p => Ev.chunkReq p.1 p.2).filterMap chunkBytes = l := by
  intro l
  induction l with
  | nil => intro i; rfl
  | cons a l ih =>
    intro i
    simp only [List.enumFrom_cons, List.map_cons, List.filterMap_cons, chunkBytes, ih (i + 1)]

/-- C1: for every file, `calculate_block_list` produces one digest per
4 MiB window: the list has `ceil(S / CHUNK_SIZE)` entries, entry `i` is the
digest of the window starting at byte `CHUNK_SIZE * i`, and for a nonempty
file the final window read (the last chunk) has size
`S - (len - 1) * CHUNK_SIZE`. -/
theorem C1_block_list_shape (md5 : List Nat → String) (file : List Nat) :
    (calculate_block_list md5 file).length =
      (file.length + CHUNK_SIZE - 1) / CHUNK_SIZE ∧
    (∀ i : Nat, i < (calculate_block_list md5 file).length →
      (calculate_block_list md5 file)[i]? =
        some (md5 ((file.drop (CHUNK_SIZE * i)).take CHUNK_SIZE))) ∧
    (file ≠ [] →
      ((readChunks file).getLastD []).length =
        file.length - ((calculate_block_list md5 file).length - 1) * CHUNK_SIZE) := by
  refine ⟨?_, ?_, ?_⟩
  · rw [calculate_block_list, List.length_map, readChunks_length]
  · intro i hi
    rw [calculate_block_list_length] at hi
    rw [calculate_block_list, List.getElem?_map, readChunks_getElem? file i hi]
    rfl
  · intro h
    rw [calculate_block_list_length, readChunks_getLastD file h, List.length_drop,
      Nat.mul_comm]

def md5C1 : List Nat → String := fun _ => "d"

def fileC1 : List Nat := [1, 2, 3]

theorem C1_block_list_shape_witness :
    fileC1 ≠ [] ∧
    ((readChunks fileC1).getLastD []).length =
      fileC1.length - ((calculate_block_list md5C1 fileC1).length - 1) * CHUNK_SIZE :=
  ⟨by decide, (C1_block_list_shape md5C1 fileC1).2.2 (by decide)⟩

/-- C2: in an upload run that reaches the chunk loop and in which every
chunk transfer succeeds, the byte ranges sent by the transfer loop, in the
order sent, are exactly the windows hashed by `calculate_block_list`
(`readChunks env.file`), and their concatenation reproduces the file
bit-for-bit. -/
theorem C2_transfer_matches_hashing (md5 : List Nat → String) (env : UploadEnv)
    (tevs : List Ev) (p : Option TokenData × String)
    (htok : get_valid_access_token env.now env.st env.refreshResp = (tevs, Except.ok p))
    (hfe : env.fileExists = true) (name : String) (hfn : env.fileName = some name)
    (herr : env.precreate.errno = 0) (uid : String)
    (hup : env.precreate.uploadid = some uid)
    (hsucc : ∀ j : Nat, isSuccess (env.chunkStatus j) = true) :
    ((upload md5 env).1.filterMap chunkBytes) = readChunks env.file ∧
    ((upload md5 env).1.filterMap chunkBytes).flatten = env.file := by
  have hloop := uploadChunksLoop_all_success env.chunkStatus hsucc env.file 0
  have hupl : (upload md5 env).1 =
      tevs ++ Ev.precreateReq ::
        ((((readChunks env.file).enumFrom 0).map fun p => Ev.chunkReq p.1 p.2) ++
          [Ev.createReq]) := by
    simp [upload, htok, hfe, hfn, herr, hup, calculate_block_list_length, hloop,
      apply_ite, ite_self]
  have hte := get_valid_access_token_events env.now env.st env.refreshResp
  rw [htok] at hte
  have h1 : (upload md5 env).1.filterMap chunkBytes = readChunks env.file := by
    rw [hupl, List.filterMap_append, List.filterMap_cons]
    have htnil : tevs.filterMap chunkBytes = [] := by
      rw [List.filterMap_eq_nil_iff]
      intro e he
      rw [hte e he]
      rfl
    rw [htnil]
    simp only [chunkBytes, List.filterMap_append, filterMap_chunkBytes_chunkEvs]
    simp [List.filterMap_cons, chunkBytes]
  exact ⟨h1, by rw [h1, readChunks_flatten]⟩

def tdC2 : TokenData :=
  { access_token := "tok", refresh_token := some "rt", expires_at := 10 }

def respC2 : TokenResponse :=
  { access_token := "n", refresh_token := none, expires_in := 3600,
    error := none, error_description := none }

def md5C2 : List Nat → String := fun _ => "d"

def envC2 : UploadEnv :=
  { now := 0, st := some tdC2, refreshResp := respC2, fileExists := true,
    fileName := some "f", file := [1, 2, 3],
    precreate := { errno := 0, uploadid := some "uid" },
    chunkStatus := fun _ => 200, createErrno := 0 }

theorem C2_transfer_matches_hashing_witness :
    envC2.fileExists = true ∧ (∀ j : Nat, isSuccess (envC2.chunkStatus j) = true) ∧
    ((upload md5C2 envC2).1.filterMap chunkBytes) = readChunks envC2.file ∧
    ((upload md5C2 envC2).1.filterMap chunkBytes).flatten = envC2.file :=
  ⟨rfl, fun _ => rfl,
    (C2_transfer_matches_hashing md5C2 envC2 [] (some tdC2, "tok") rfl rfl "f" rfl rfl
      "uid" rfl fun _ => rfl).1,
    (C2_transfer_matches_hashing md5C2 envC2 [] (some tdC2, "tok") rfl rfl "f" rfl rfl
      "uid" rfl fun _ => rfl).2⟩

/-- C3: in an upload run whose precreate response carries a non-zero
`errno`, `upload` fails with `precreateRejected errno`, the precreate
request itself was issued, and the trace contains no chunk-transfer request
and no create/commit request. -/
theorem C3_precreate_reject_stops_everything (md5 : List Nat → String)
    (env : UploadEnv) (tevs : List Ev) (p : Option TokenData × String)
    (htok : get_valid_access_token env.now env.st env.refreshResp = (tevs, Except.ok p))
    (hfe : env.fileExists = true) (name : String) (hfn : env.fileName = some name)
    (herr : env.precreate.errno ≠ 0) :
    (upload md5 env).2 = Except.error (UploadErr.precreateRejected env.precreate.errno) ∧
    Ev.precreateReq ∈ (upload md5 env).1 ∧
    (upload md5 env).1.countP Ev.isChunk = 0 ∧
    (upload md5 env).1.countP Ev.isCreate = 0 := by
  have hupl : upload md5 env =
      (tevs ++ [Ev.precreateReq],
        Except.error (UploadErr.precreateRejected env.precreate.errno)) := by
    simp [upload, htok, hfe, hfn, herr]
  have hte := get_valid_access_token_events env.now env.st env.refreshResp
  rw [htok] at hte
  have htz : ∀ q : Ev → Bool, q Ev.refreshRequest = false → tevs.countP q = 0 := by
    intro q hq
    rw [List.countP_eq_zero]
    intro e he
    rw [hte e he, hq]
    exact Bool.false_ne_true
  refine ⟨by rw [hupl], by rw [hupl]; simp, ?_, ?_⟩
  · rw [hupl]
    simp only [List.countP_append, htz Ev.isChunk rfl]
    rfl
  · rw [hupl]
    simp only [List.countP_append, htz Ev.isCreate rfl]
    rfl

def envC3 : UploadEnv :=
  { now := 0, st := some tdC2, refreshResp := respC2, fileExists := true,
    fileName := some "f", file := [1, 2, 3],
    precreate := { errno := 5, uploadid := none },
    chunkStatus := fun _ => 200, createErrno := 0 }

theorem C3_precreate_reject_stops_everything_witness :
    envC3.precreate.errno ≠ 0 ∧
    (upload md5C2 envC3).2 =
      Except.error (UploadErr.precreateRejected envC3.precreate.errno) ∧
    (upload md5C2 envC3).1.countP Ev.isChunk = 0 ∧
    (upload md5C2 envC3).1.countP Ev.isCreate = 0 := by
  have h := C3_precreate_reject_stops_everything md5C2 envC3 [] (some tdC2, "tok")
    rfl rfl "f" rfl (by decide)
  exact ⟨by decide, h.1, h.2.2.1, h.2.2.2⟩

/-- C4: in an upload run that reaches the chunk loop, with every chunk
before index `k` accepted and the transfer of chunk `k` (not the last chunk)
answered with a non-success status, `upload` aborts with
`chunkFailed k status`: chunk `k` is sent exactly once (no retry), no chunk
with a higher index is ever sent, and no create/commit request is issued. -/
theorem C4_chunk_failure_aborts (md5 : List Nat → String) (env : UploadEnv)
    (tevs : List Ev) (p : Option TokenData × String) (k : Nat)
    (htok : get_valid_access_token env.now env.st env.refreshResp = (tevs, Except.ok p))
    (hfe : env.fileExists = true) (name : String) (hfn : env.fileName = some name)
    (herr : env.precreate.errno = 0) (uid : String)
    (hup : env.precreate.uploadid = some uid)
    (hk : k + 1 < (calculate_block_list md5 env.file).length)
    (hsucc : ∀ j : Nat, j < k → isSuccess (env.chunkStatus j) = true)
    (hfail : isSuccess (env.chunkStatus k) = false) :
    (upload md5 env).2 = Except.error (UploadErr.chunkFailed k (env.chunkStatus k)) ∧
    (upload md5 env).1.countP (Ev.isChunkIdx k) = 1 ∧
    (∀ j : Nat, k < j → (upload md5 env).1.countP (Ev.isChunkIdx j) = 0) ∧
    (upload md5 env).1.countP Ev.isCreate = 0 := by
  rw [calculate_block_list_length] at hk
  have hloop := uploadChunksLoop_fail env.chunkStatus k env.file 0
    (readChunks env.file).length rfl (by omega)
    (fun j hj => by simpa using hsucc j hj) (by simpa using hfail)
  simp only [Nat.zero_add] at hloop
  have hupl : upload md5 env =
      (tevs ++ Ev.precreateReq ::
          ((((readChunks env.file).take (k + 1)).enumFrom 0).map
            fun p => Ev.chunkReq p.1 p.2),
        Except.error (UploadErr.chunkFailed k (env.chunkStatus k))) := by
    simp [upload, htok, hfe, hfn, herr, hup, calculate_block_list_length, hloop]
  have hte := get_valid_access_token_events env.now env.st env.refreshResp
  rw [htok] at hte
  have htz : ∀ q : Ev → Bool, q Ev.refreshRequest = false → tevs.countP q = 0 := by
    intro q hq
    rw [List.countP_eq_zero]
    intro e he
    rw [hte e he, hq]
    exact Bool.false_ne_true
  have hlen : (((readChunks env.file).take (k + 1)).length) = k + 1 := by
    rw [List.length_take]
    omega
  refine ⟨by rw [hupl], ?_, ?_, ?_⟩
  · rw [hupl]
    simp only [List.countP_append, htz (Ev.isChunkIdx k) rfl, List.countP_cons,
      countP_chunkIdx_enumFrom, hlen]
    rw [if_pos (by omega : 0 ≤ k ∧ k < 0 + (k + 1))]
    rfl
  · intro j hj
    rw [hupl]
    simp only [List.countP_append, htz (Ev.isChunkIdx j) rfl, List.countP_cons,
      countP_chunkIdx_enumFrom, hlen]
    rw [if_neg (by omega : ¬(0 ≤ j ∧ j < 0 + (k + 1)))]
    rfl
  · rw [hupl]
    simp only [List.countP_append, htz Ev.isCreate rfl, List.countP_cons,
      countP_chunkEvs_zero Ev.isCreate (fun _ _ => rfl)]
    rfl

def envC4 : UploadEnv :=
  { now := 0, st := some tdC2, refreshResp := respC2, fileExists := true,
    fileName := some "f", file := List.replicate (CHUNK_SIZE + 1) 0,
    precreate := { errno := 0, uploadid := some "uid" },
    chunkStatus := fun _ => 500, createErrno := 0 }

theorem C4_chunk_failure_aborts_witness :
    0 + 1 < (calculate_block_list md5C2 envC4.file).length ∧
    isSuccess (envC4.chunkStatus 0) = false ∧
    (upload md5C2 envC4).2 =
      Except.error (UploadErr.chunkFailed 0 (envC4.chunkStatus 0)) ∧
    (upload md5C2 envC4).1.countP (Ev.isChunkIdx 0) = 1 ∧
    (upload md5C2 envC4).1.countP Ev.isCreate = 0 := by
  have hk : 0 + 1 < (calculate_block_list md5C2 envC4.file).length := by
    have h1 : envC4.file = List.replicate (CHUNK_SIZE + 1) 0 := rfl
    rw [calculate_block_list_length, readChunks_length, h1, List.length_replicate]
    simp only [CHUNK_SIZE]
    omega
  have h := C4_chunk_failure_aborts md5C2 envC4 [] (some tdC2, "tok") 0 rfl rfl "f" rfl
    rfl "uid" rfl hk (fun j hj => absurd hj (Nat.not_lt_zero j)) rfl
  exact ⟨hk, rfl, h.1, h.2.1, h.2.2.2⟩

/-- C10: `upload` never returns `Ok(false)`: whenever it returns without
error the boolean is `true`.  Every error exit uses `bail!` and the single
success exit returns `Ok(true)`. -/
theorem C10_upload_never_ok_false (md5 : List Nat → String) (env : UploadEnv) (b : Bool)
    (h : (upload md5 env).2 = Except.ok b) : b = true := by
  unfold upload at h
  repeat' split at h
  all_goals
    first
    | (simp_all; done)
    | (rcases hloop : uploadChunksLoop env.chunkStatus 0
          (calculate_block_list md5 env.file).length env.file with ⟨cevs, rl⟩
       simp only [] at h
       rw [hloop] at h
       cases rl <;> simp_all)

def envC10 : UploadEnv :=
  { now := 0, st := some tdC2, refreshResp := respC2, fileExists := true,
    fileName := some "f", file := [],
    precreate := { errno := 0, uploadid := some "uid" },
    chunkStatus := fun _ => 200, createErrno := 0 }

theorem C10_upload_never_ok_false_witness :
    (upload md5C2 envC10).2 = Except.ok true ∧ true = true := by
  have hbl : calculate_block_list md5C2 ([] : List Nat) = [] := by
    rw [calculate_block_list, readChunks_nil]
    rfl
  have h : (upload md5C2 envC10).2 = Except.ok true := by
    simp [upload, envC10, hbl, uploadChunksLoop,
      show get_valid_access_token 0 (some tdC2) respC2 =
        ([], Except.ok (some tdC2, "tok")) from rfl]
  exact ⟨h, C10_upload_never_ok_false md5C2 envC10 true h⟩

end Baidu
